import Mathlib

/-!
# Payroll record keeper (`gogogogo.cpp`)

A shallow embedding of the console payroll program and the proofs of its
specified properties.

Conventions of the embedding.

* `std::string` is `String`; a line of standard input is a `List Char`.
* `double` is `ℚ`: arithmetic is taken exactly (no rounding, no overflow).  The
  one place where the program divides, the result is a `DoubleQuotient`: the
  exact quotient, or the infinity or NaN that a zero divisor produces.
* `int` is `Int`.
* Text sent to `std::cout` is an `Output`: the list of the texts written, one
  entry per output statement of the source, in order.
* The standard library's numeric extraction (`std::cin >> value`) and numeric
  insertion (`std::cout << double`) are not part of the program; they are the
  fields of `StdStreams`, and every function that uses them takes them as an
  argument.
-/

namespace Payroll

/-! ## Library interface -/

/-- One line of standard input, without its terminating newline. -/
abbrev Line := List Char

/-- What is left to read on standard input: the unread rest of the current line,
then the following lines.  The empty list is end of input. -/
abbrev Input := List Line

/-- The texts written to `std::cout`, one per output statement. -/
abbrev Output := List String

/-- The numeric input and output operators of the standard library.
`readDouble` and `readInt` are `std::cin >> value` started at the first
non-blank character of a line: they give the value read (`none` when the
extraction fails) and the unread rest of that line.  `showDouble` is the
text `std::cout << value` writes for a finite `double`, `showNaN` the text
it writes for a NaN, and `showInfinity` the text it writes for an infinity
(the argument tells whether it is the negative one). -/
structure StdStreams where
  readDouble : Line → Option ℚ × Line
  readInt : Line → Option Int × Line
  showDouble : ℚ → String
  showNaN : String
  showInfinity : Bool → String

/-- The value of a `double` division `a / b`: finite when the divisor is not zero;
with a zero divisor, NaN for `0 / 0` and an infinity of the sign of `a`
otherwise. -/
inductive DoubleQuotient where
  | finite (q : ℚ)
  | infinite (negative : Bool)
  | nan
deriving DecidableEq

/-- The `double` division `a / b`. -/
def divide (a b : ℚ) : DoubleQuotient :=
  if b = 0 then (if a = 0 then DoubleQuotient.nan else DoubleQuotient.infinite (decide (a < 0)))
  else DoubleQuotient.finite (a / b)

/-- The text `std::cout << (a / b)` writes for the result of a division. -/
def showQuotient (io : StdStreams) : DoubleQuotient → String
  | DoubleQuotient.finite q => io.showDouble q
  | DoubleQuotient.infinite negative => io.showInfinity negative
  | DoubleQuotient.nan => io.showNaN

/-- The text `std::cout << n` writes for an `int`. -/
def showInt (n : Int) : String := toString n

/-! ## The employee hierarchy -/

/-- The three concrete classes derived from `Employee`, each with the fields it
stores: the base fields `id`, `name`, `salary`, then the class's own field. -/
inductive Employee where
  | fullTime (id name : String) (salary : ℚ)
  | partTime (id name : String) (salary : ℚ) (hoursWorked : ℚ)
  | contractual (id name : String) (salary : ℚ) (projectsCompleted : Int)
deriving DecidableEq

namespace Employee

/-- Accessor `Employee::getId`. -/
def getId : Employee → String
  | fullTime id _ _ => id
  | partTime id _ _ _ => id
  | contractual id _ _ _ => id

/-- Base field `name`. -/
def name : Employee → String
  | fullTime _ n _ => n
  | partTime _ n _ _ => n
  | contractual _ n _ _ => n

/-- Base field `salary`. -/
def salary : Employee → ℚ
  | fullTime _ _ s => s
  | partTime _ _ s _ => s
  | contractual _ _ s _ => s

/-- The virtual `display()`: the texts of its output statements.  The derived rate
is the `double` division of the stored salary by the stored divisor. -/
def display (io : StdStreams) : Employee → Output
  | fullTime id name salary =>
      ["Employee: " ++ name ++ " (ID: " ++ id ++ ")\n",
       "Fixed Monthly Salary: Php " ++ io.showDouble salary ++ "\n\n"]
  | partTime id name salary hoursWorked =>
      ["Employee: " ++ name ++ " (ID: " ++ id ++ ")\n",
       "Hourly Wage: Php " ++ showQuotient io (divide salary hoursWorked) ++ "\n",
       "Hours Worked: " ++ io.showDouble hoursWorked ++ "\n",
       "Total Salary: Php " ++ io.showDouble salary ++ "\n\n"]
  | contractual id name salary projectsCompleted =>
      ["Employee: " ++ name ++ " (ID: " ++ id ++ ")\n",
       "Contract Payment Per Project: Php "
          ++ showQuotient io (divide salary (projectsCompleted : ℚ)) ++ "\n",
       "Projects Completed: " ++ showInt projectsCompleted ++ "\n",
       "Total Salary: Php " ++ io.showDouble salary ++ "\n\n"]

end Employee

/-- Constructor `FullTimeEmployee(id, name, salary)`. -/
def FullTimeEmployee (id name : String) (salary : ℚ) : Employee :=
  Employee.fullTime id name salary

/-- Constructor `PartTimeEmployee(id, name, hourlyWage, hoursWorked)`: the base
salary is initialised with `hourlyWage * hoursWorked`. -/
def PartTimeEmployee (id name : String) (hourlyWage hoursWorked : ℚ) : Employee :=
  Employee.partTime id name (hourlyWage * hoursWorked) hoursWorked

/-- Constructor `ContractualEmployee(id, name, paymentPerProject, projectsCompleted)`:
the base salary is initialised with `paymentPerProject * projectsCompleted`. -/
def ContractualEmployee (id name : String) (paymentPerProject : ℚ)
    (projectsCompleted : Int) : Employee :=
  Employee.contractual id name (paymentPerProject * (projectsCompleted : ℚ)) projectsCompleted

/-! ## The payroll collection -/

/-- Class `PayrollSystem`: the vector of employees it owns. -/
structure PayrollSystem where
  employees : List Employee
deriving DecidableEq

namespace PayrollSystem

/-- A freshly constructed `PayrollSystem`. -/
def empty : PayrollSystem := ⟨[]⟩

/-- Method `addEmployee`: the new state and what is written. -/
def addEmployee (p : PayrollSystem) (emp : Employee) : PayrollSystem × Output :=
  if p.employees.any (fun e => e.getId == emp.getId) then
    (p, ["Duplicate ID!\n"])
  else
    (⟨p.employees ++ [emp]⟩, [])

/-- Method `displayPayrollReport`: what is written. -/
def displayPayrollReport (io : StdStreams) (p : PayrollSystem) : Output :=
  p.employees.foldl (fun out emp => out ++ emp.display io)
    ["--- Employee Payroll Report ---\n"]

/-- Method `isIdUnique` (`std::none_of` over the stored records). -/
def isIdUnique (p : PayrollSystem) (id : String) : Bool :=
  p.employees.all (fun e => !(e.getId == id))

/-- The state after a sequence of `addEmployee` calls. -/
def addAll (p : PayrollSystem) (rs : List Employee) : PayrollSystem :=
  rs.foldl (fun q r => (q.addEmployee r).1) p

/-- The records of `rs` that `addEmployee` accepts (writes no notice for) when they
are added one after the other to `p`. -/
def accepted (p : PayrollSystem) : List Employee → List Employee
  | [] => []
  | r :: rs =>
    if (p.addEmployee r).2 = [] then r :: accepted (p.addEmployee r).1 rs
    else accepted (p.addEmployee r).1 rs

end PayrollSystem

/-! ## Reading standard input -/

/-- Classification `std::isalpha` in the default "C" locale: the 52 ASCII letters. -/
def isalpha (ch : Char) : Bool :=
  (65 ≤ ch.toNat && ch.toNat ≤ 90) || (97 ≤ ch.toNat && ch.toNat ≤ 122)

/-- Classification `std::isspace` in the default "C" locale: space, `\t`, `\n`,
`\v`, `\f`, `\r`. -/
def isspace (ch : Char) : Bool :=
  ch.toNat = 32 || (9 ≤ ch.toNat && ch.toNat ≤ 13)

/-- Classification `std::isdigit`: the ten ASCII digits. -/
def isdigit (ch : Char) : Bool :=
  48 ≤ ch.toNat && ch.toNat ≤ 57

/-- Classification `std::ispunct` in the default "C" locale: the printable ASCII
characters that are neither letters, digits nor the space. -/
def ispunct (ch : Char) : Bool :=
  (33 ≤ ch.toNat && ch.toNat ≤ 47) || (58 ≤ ch.toNat && ch.toNat ≤ 64)
    || (91 ≤ ch.toNat && ch.toNat ≤ 96) || (123 ≤ ch.toNat && ch.toNat ≤ 126)

/-- The whitespace skipping that starts every `std::cin >> value`: blanks are
dropped, line ends included, up to the first non-blank character. -/
def skipws : Input → Input
  | [] => []
  | l :: rest =>
    match l.dropWhile isspace with
    | [] => skipws rest
    | c :: cs => (c :: cs) :: rest

/-- Statement `std::cin >> value` with the library reader `read`: the value read
(`none` when the stream fails, at end of input included) and the input left. -/
def extract {α : Type} (read : Line → Option α × Line) (inp : Input) : Option α × Input :=
  match skipws inp with
  | [] => (none, [])
  | l :: rest => ((read l).1, (read l).2 :: rest)

/-- Statement `std::cin.ignore(numeric_limits<streamsize>::max(), '\n')`: the rest
of the current line is discarded. -/
def ignoreLine : Input → Input
  | [] => []
  | _ :: rest => rest

/-- The result of a prompt loop that went round once more: what the rejected round
wrote comes before what the later rounds write. -/
def reprompt {α : Type} (o : Output) :
    Option (α × Output × Input) → Option (α × Output × Input)
  | none => none
  | some (a, out, inp) => some (a, o ++ out, inp)

/-- Function `isNameValid`, as the loop over the characters of `name`. -/
def isNameValidChars : List Char → Bool
  | [] => true
  | ch :: rest => if !isalpha ch && !isspace ch then false else isNameValidChars rest

/-- Function `isNameValid`. -/
def isNameValid (name : String) : Bool := isNameValidChars name.data

/-- Function `getValidatedStringInput`: the line returned, what was written, the
input left.  Each round takes one line with `std::getline`; at end of input
`getline` fails and leaves the string empty, so the loop never exits (`none`). -/
def getValidatedStringInput (prompt : String) : Input → Option (String × Output × Input)
  | [] => none
  | l :: rest =>
    if !l.isEmpty then some (String.mk l, [prompt], rest)
    else reprompt [prompt, "Invalid input. Please enter a non-empty value.\n"]
      (getValidatedStringInput prompt rest)

/-- The `while (true)` loop of `getValidatedNameInput`, at most `fuel` rounds. -/
def getValidatedNameInputLoop (prompt : String) :
    Nat → Input → Option (String × Output × Input)
  | 0, _ => none
  | fuel + 1, inp =>
    match getValidatedStringInput prompt inp with
    | none => none
    | some (name, out, inp') =>
      if isNameValid name then some (name, out, inp')
      else reprompt (out ++ ["Invalid input. Name should contain only alphabetic characters.\n"])
        (getValidatedNameInputLoop prompt fuel inp')

/-- Function `getValidatedNameInput`.  Every round takes at least one line, so one
round more than there are lines left is as good as unboundedly many. -/
def getValidatedNameInput (prompt : String) (inp : Input) : Option (String × Output × Input) :=
  getValidatedNameInputLoop prompt (inp.length + 1) inp

/-- The `while (true)` loop of `getValidatedDoubleInput`, at most `fuel` rounds. -/
def getValidatedDoubleInputLoop (io : StdStreams) (prompt : String) :
    Nat → Input → Option (ℚ × Output × Input)
  | 0, _ => none
  | fuel + 1, inp =>
    match extract io.readDouble inp with
    | (some value, inp') =>
      if value ≥ 0 then some (value, [prompt], inp')
      else reprompt [prompt, "Invalid input. Please enter a valid number.\n"]
        (getValidatedDoubleInputLoop io prompt fuel (ignoreLine inp'))
    | (none, inp') =>
      reprompt [prompt, "Invalid input. Please enter a valid number.\n"]
        (getValidatedDoubleInputLoop io prompt fuel (ignoreLine inp'))

/-- Function `getValidatedDoubleInput`.  A rejected round discards a line, and at
end of input every round is rejected, so one round more than there are lines
left is as good as unboundedly many. -/
def getValidatedDoubleInput (io : StdStreams) (prompt : String) (inp : Input) :
    Option (ℚ × Output × Input) :=
  getValidatedDoubleInputLoop io prompt (inp.length + 1) inp

/-- The `while (true)` loop of `getValidatedIntInput`, at most `fuel` rounds. -/
def getValidatedIntInputLoop (io : StdStreams) (prompt : String) :
    Nat → Input → Option (Int × Output × Input)
  | 0, _ => none
  | fuel + 1, inp =>
    match extract io.readInt inp with
    | (some value, inp') =>
      if value > 0 then some (value, [prompt], inp')
      else reprompt [prompt, "Invalid input. Please enter a positive integer.\n"]
        (getValidatedIntInputLoop io prompt fuel (ignoreLine inp'))
    | (none, inp') =>
      reprompt [prompt, "Invalid input. Please enter a positive integer.\n"]
        (getValidatedIntInputLoop io prompt fuel (ignoreLine inp'))

/-- Function `getValidatedIntInput`, with the rounds bounded as for
`getValidatedDoubleInput`. -/
def getValidatedIntInput (io : StdStreams) (prompt : String) (inp : Input) :
    Option (Int × Output × Input) :=
  getValidatedIntInputLoop io prompt (inp.length + 1) inp

/-- The `while (true)` loop of `getValidatedUniqueId`, at most `fuel` rounds. -/
def getValidatedUniqueIdLoop (payroll : PayrollSystem) (prompt : String) :
    Nat → Input → Option (String × Output × Input)
  | 0, _ => none
  | fuel + 1, inp =>
    match getValidatedStringInput prompt inp with
    | none => none
    | some (id, out, inp') =>
      if payroll.isIdUnique id then some (id, out, inp')
      else reprompt (out ++ ["Duplicate ID! Please enter another ID.\n"])
        (getValidatedUniqueIdLoop payroll prompt fuel inp')

/-- Function `getValidatedUniqueId`, with the rounds bounded as for
`getValidatedNameInput`. -/
def getValidatedUniqueId (payroll : PayrollSystem) (prompt : String) (inp : Input) :
    Option (String × Output × Input) :=
  getValidatedUniqueIdLoop payroll prompt (inp.length + 1) inp

/-! ## The token a numeric prompt reads -/

/-- The token `std::cin >> value` meets on the line `l`: what the library reader
gives at the first non-blank character of `l` (the value, `none` for a token
that does not parse, and the unread rest of the line); `none` when the line
is blank and has no token. -/
def leadingToken {α : Type} (read : Line → Option α × Line) (l : Line) :
    Option (Option α × Line) :=
  match l.dropWhile isspace with
  | [] => none
  | c :: cs => some (read (c :: cs))

/-- The common shape of the two numeric prompt loops, for a reader `read`, an
accept condition `ok` and an error message `msg`, at most `fuel` rounds. -/
def promptLoop {α : Type} (read : Line → Option α × Line) (ok : α → Bool)
    (prompt msg : String) : Nat → Input → Option (α × Output × Input)
  | 0, _ => none
  | fuel + 1, inp =>
    match extract read inp with
    | (some value, inp') =>
      if ok value then some (value, [prompt], inp')
      else reprompt [prompt, msg] (promptLoop read ok prompt msg fuel (ignoreLine inp'))
    | (none, inp') =>
      reprompt [prompt, msg] (promptLoop read ok prompt msg fuel (ignoreLine inp'))

/-- The search a numeric prompt loop performs, line by line: blank lines are passed
over silently, a line whose token does not parse or is not accepted is
discarded with an error message, the first accepted token is returned. -/
def firstAccepted {α : Type} (read : Line → Option α × Line) (ok : α → Bool)
    (prompt msg : String) : Input → Option (α × Output × Input)
  | [] => none
  | l :: rest =>
    match leadingToken read l with
    | none => firstAccepted read ok prompt msg rest
    | some (some v, rem) =>
      if ok v then some (v, [prompt], rem :: rest)
      else reprompt [prompt, msg] (firstAccepted read ok prompt msg rest)
    | some (none, _) => reprompt [prompt, msg] (firstAccepted read ok prompt msg rest)

/-! ## The menu loop -/

/-- The five menu lines written at the top of every round of `main`. -/
def menuText : Output :=
  ["Menu\n", "1 - Full-time Employee\n", "2 - Part-time Employee\n",
   "3 - Contractual Employee\n", "4 - Display Payroll Report\n", "5 - Exit\n"]

/-- Branch `case 1` of the `switch` in `main`. -/
def caseFullTime (io : StdStreams) (payroll : PayrollSystem) (inp : Input) :
    Option (PayrollSystem × Output × Input) :=
  match getValidatedUniqueId payroll "Enter ID: " inp with
  | none => none
  | some (id, o1, inp1) =>
    match getValidatedNameInput "Enter Name: " inp1 with
    | none => none
    | some (name, o2, inp2) =>
      match getValidatedDoubleInput io "Enter Salary: " inp2 with
      | none => none
      | some (salary, o3, inp3) =>
        some ((payroll.addEmployee (FullTimeEmployee id name salary)).1,
          o1 ++ o2 ++ o3 ++ (payroll.addEmployee (FullTimeEmployee id name salary)).2, inp3)

/-- Branch `case 2` of the `switch` in `main`. -/
def casePartTime (io : StdStreams) (payroll : PayrollSystem) (inp : Input) :
    Option (PayrollSystem × Output × Input) :=
  match getValidatedUniqueId payroll "Enter ID: " inp with
  | none => none
  | some (id, o1, inp1) =>
    match getValidatedNameInput "Enter Name: " inp1 with
    | none => none
    | some (name, o2, inp2) =>
      match getValidatedDoubleInput io "Enter Hourly Wage: " inp2 with
      | none => none
      | some (hourlyWage, o3, inp3) =>
        match getValidatedDoubleInput io "Enter Hours Worked: " inp3 with
        | none => none
        | some (hoursWorked, o4, inp4) =>
          some ((payroll.addEmployee (PartTimeEmployee id name hourlyWage hoursWorked)).1,
            o1 ++ o2 ++ o3 ++ o4
              ++ (payroll.addEmployee (PartTimeEmployee id name hourlyWage hoursWorked)).2,
            inp4)

/-- Branch `case 3` of the `switch` in `main`. -/
def caseContractual (io : StdStreams) (payroll : PayrollSystem) (inp : Input) :
    Option (PayrollSystem × Output × Input) :=
  match getValidatedUniqueId payroll "Enter ID: " inp with
  | none => none
  | some (id, o1, inp1) =>
    match getValidatedNameInput "Enter Name: " inp1 with
    | none => none
    | some (name, o2, inp2) =>
      match getValidatedDoubleInput io "Enter Payment Per Project: " inp2 with
      | none => none
      | some (paymentPerProject, o3, inp3) =>
        match getValidatedIntInput io "Enter Projects Completed: " inp3 with
        | none => none
        | some (projectsCompleted, o4, inp4) =>
          some ((payroll.addEmployee
              (ContractualEmployee id name paymentPerProject projectsCompleted)).1,
            o1 ++ o2 ++ o3 ++ o4 ++ (payroll.addEmployee
              (ContractualEmployee id name paymentPerProject projectsCompleted)).2,
            inp4)

/-- The `switch (choice)` of `main`. -/
def dispatch (io : StdStreams) (choice : Int) (payroll : PayrollSystem) (inp : Input) :
    Option (PayrollSystem × Output × Input) :=
  if choice = 1 then caseFullTime io payroll inp
  else if choice = 2 then casePartTime io payroll inp
  else if choice = 3 then caseContractual io payroll inp
  else if choice = 4 then some (payroll, payroll.displayPayrollReport io, inp)
  else if choice = 5 then some (payroll, ["Exiting...\n"], inp)
  else some (payroll, ["Invalid choice. Please try again.\n"], inp)

/-- One round of the `do ... while (choice != 5)` loop of `main`: the choice read,
the collection after the round, what the round wrote, the input left. -/
def mainRound (io : StdStreams) (payroll : PayrollSystem) (inp : Input) :
    Option (Int × PayrollSystem × Output × Input) :=
  match getValidatedIntInput io "Enter your choice: " inp with
  | none => none
  | some (choice, o0, inp0) =>
    match dispatch io choice payroll (ignoreLine inp0) with
    | none => none
    | some (payroll', o1, inp1) => some (choice, payroll', menuText ++ o0 ++ o1, inp1)

/-! ## A concrete library for worked examples -/

/-- The digits at the front of a line: their value after `acc`, how many there
are, and the rest of the line. -/
def readDigits : Line → Nat → Nat → Nat × Nat × Line
  | [], acc, n => (acc, n, [])
  | c :: cs, acc, n =>
    if c.isDigit then readDigits cs (acc * 10 + (c.toNat - 48)) (n + 1)
    else (acc, n, c :: cs)

/-- The optional sign at the front of a line: whether it is a minus, and the rest. -/
def readSign : Line → Bool × Line
  | [] => (false, [])
  | c :: cs => if c = '-' then (true, cs) else if c = '+' then (false, cs) else (false, c :: cs)

/-- A reader of `int` for plain decimal literals `[sign] digits`: it fails when
there is no digit or when the value does not fit in 32 bits. -/
def decimalReadInt (l : Line) : Option Int × Line :=
  match readDigits (readSign l).2 0 0 with
  | (v, n, rest) =>
    if n = 0 then (none, rest)
    else if (readSign l).1 then
      (if v ≤ 2147483648 then (some (-(v : Int)), rest) else (none, rest))
    else
      (if v ≤ 2147483647 then (some (v : Int), rest) else (none, rest))

/-- A reader of `double` for plain decimal literals `[sign] digits [. digits]`
(no exponent), with the exact decimal value; it fails when there is no digit. -/
def decimalReadDouble (l : Line) : Option ℚ × Line :=
  match readDigits (readSign l).2 0 0 with
  | (v, n, rest) =>
    match rest with
    | '.' :: more =>
      (match readDigits more 0 0 with
       | (f, k, rest') =>
         if n + k = 0 then (none, rest')
         else
           (some ((if (readSign l).1 then -1 else 1) * ((v : ℚ) + (f : ℚ) / (10 : ℚ) ^ k)),
            rest'))
    | _ =>
      if n = 0 then (none, rest)
      else (some ((if (readSign l).1 then -1 else 1) * (v : ℚ)), rest)

/-- A writer of `double` that is exact on whole numbers (the decimal digits) and
writes other values as a fraction. -/
def decimalShowDouble (q : ℚ) : String :=
  if q.den = 1 then toString q.num else toString q.num ++ "/" ++ toString q.den

/-- A concrete library, used to run the program on sample sessions with plain
decimal numbers.  A NaN is written `-nan`, the text the GNU library writes
for the result of `0.0 / 0.0` on x86-64. -/
def sampleStreams : StdStreams :=
  ⟨decimalReadDouble, decimalReadInt, decimalShowDouble, "-nan",
    fun negative => if negative then "-inf" else "inf"⟩

/-! ## Properties of the payroll collection -/

namespace PayrollSystem

theorem any_getId_iff (es : List Employee) (id : String) :
    es.any (fun e => e.getId == id) = true ↔ ∃ e ∈ es, e.getId = id := by
  simp [List.any_eq_true]

theorem addEmployee_of_mem (p : PayrollSystem) (r : Employee)
    (h : ∃ e ∈ p.employees, e.getId = r.getId) :
    p.addEmployee r = (p, ["Duplicate ID!\n"]) := by
  unfold addEmployee
  rw [if_pos ((any_getId_iff _ _).2 h)]

theorem addEmployee_of_not_mem (p : PayrollSystem) (r : Employee)
    (h : ∀ e ∈ p.employees, e.getId ≠ r.getId) :
    p.addEmployee r = (⟨p.employees ++ [r]⟩, []) := by
  unfold addEmployee
  rw [if_neg]
  intro hany
  obtain ⟨e, he, hid⟩ := (any_getId_iff _ _).1 hany
  exact h e he hid

theorem isIdUnique_iff (p : PayrollSystem) (id : String) :
    p.isIdUnique id = true ↔ ∀ r ∈ p.employees, r.getId ≠ id := by
  simp [isIdUnique, List.all_eq_true]

theorem addEmployee_of_isIdUnique (p : PayrollSystem) (r : Employee)
    (h : p.isIdUnique r.getId = true) :
    p.addEmployee r = (⟨p.employees ++ [r]⟩, []) :=
  addEmployee_of_not_mem p r ((isIdUnique_iff p _).1 h)

theorem addEmployee_nodup (p : PayrollSystem) (r : Employee)
    (h : (p.employees.map Employee.getId).Nodup) :
    ((p.addEmployee r).1.employees.map Employee.getId).Nodup := by
  by_cases hm : ∃ e ∈ p.employees, e.getId = r.getId
  · rw [addEmployee_of_mem p r hm]; exact h
  · have hn : ∀ e ∈ p.employees, e.getId ≠ r.getId := by
      intro e he hid; exact hm ⟨e, he, hid⟩
    rw [addEmployee_of_not_mem p r hn]
    simp only [List.map_append, List.map_cons, List.map_nil]
    refine List.Nodup.append h (List.nodup_singleton _) ?_
    intro x hx hx'
    rw [List.mem_singleton] at hx'
    obtain ⟨e, he, hid⟩ := List.mem_map.1 hx
    exact hn e he (hid.trans hx')

theorem addAll_nodup (rs : List Employee) :
    ∀ p : PayrollSystem, (p.employees.map Employee.getId).Nodup →
      ((p.addAll rs).employees.map Employee.getId).Nodup := by
  induction rs with
  | nil => intro p h; exact h
  | cons r rs ih =>
    intro p h
    exact ih (p.addEmployee r).1 (addEmployee_nodup p r h)

theorem addAll_employees (rs : List Employee) :
    ∀ p : PayrollSystem, (p.addAll rs).employees = p.employees ++ p.accepted rs := by
  induction rs with
  | nil => intro p; simp [addAll, accepted]
  | cons r rs ih =>
    intro p
    have hstep : p.addAll (r :: rs) = (p.addEmployee r).1.addAll rs := rfl
    rw [hstep, ih]
    by_cases hm : ∃ e ∈ p.employees, e.getId = r.getId
    · simp [accepted, addEmployee_of_mem p r hm]
    · have hn : ∀ e ∈ p.employees, e.getId ≠ r.getId := by
        intro e he hid; exact hm ⟨e, he, hid⟩
      simp [accepted, addEmployee_of_not_mem p r hn]

theorem foldl_display (io : StdStreams) (es : List Employee) :
    ∀ out : Output, es.foldl (fun out emp => out ++ emp.display io) out
      = out ++ (es.map (Employee.display io)).flatten := by
  induction es with
  | nil => intro out; simp
  | cons e es ih => intro out; simp [ih]

end PayrollSystem

/-- C1: after any finite sequence of `addEmployee` calls on an initially empty
`PayrollSystem` (any records, repeated ids allowed), no two stored records
have the same id. -/
theorem addEmployee_calls_ids_nodup (rs : List Employee) :
    ((PayrollSystem.empty.addAll rs).employees.map Employee.getId).Nodup :=
  PayrollSystem.addAll_nodup rs PayrollSystem.empty List.nodup_nil

/-- C2: when the id of `r` is the id of a stored record, `addEmployee r` leaves the
collection as it is and writes the notice `Duplicate ID!`; when no stored
record has the id of `r`, it writes nothing and the new list is the old one
with `r` at the end. -/
theorem addEmployee_duplicate_or_append (p : PayrollSystem) (r : Employee) :
    ((∃ e ∈ p.employees, e.getId = r.getId) →
        p.addEmployee r = (p, ["Duplicate ID!\n"])) ∧
    ((∀ e ∈ p.employees, e.getId ≠ r.getId) →
        p.addEmployee r = (⟨p.employees ++ [r]⟩, [])) :=
  ⟨PayrollSystem.addEmployee_of_mem p r, PayrollSystem.addEmployee_of_not_mem p r⟩

/-- Witness of C2 on the scenario of the specification: `E1` and `E2` are stored, a
second `E1` is rejected with the notice, a new `E3` is appended silently. -/
theorem addEmployee_duplicate_or_append_witness :
    (PayrollSystem.mk [FullTimeEmployee "E1" "Jane Doe" 30000,
        PartTimeEmployee "E2" "John Roe" 100 160]).addEmployee
        (FullTimeEmployee "E1" "Jim Poe" 5)
      = (⟨[FullTimeEmployee "E1" "Jane Doe" 30000,
          PartTimeEmployee "E2" "John Roe" 100 160]⟩, ["Duplicate ID!\n"]) ∧
    (PayrollSystem.mk [FullTimeEmployee "E1" "Jane Doe" 30000,
        PartTimeEmployee "E2" "John Roe" 100 160]).addEmployee
        (FullTimeEmployee "E3" "Jim Poe" 5)
      = (⟨[FullTimeEmployee "E1" "Jane Doe" 30000,
          PartTimeEmployee "E2" "John Roe" 100 160] ++ [FullTimeEmployee "E3" "Jim Poe" 5]⟩,
          []) :=
  ⟨(addEmployee_duplicate_or_append _ _).1
      ⟨FullTimeEmployee "E1" "Jane Doe" 30000, by simp, by decide⟩,
   (addEmployee_duplicate_or_append _ _).2 (by
      intro e he
      simp only [List.mem_cons, List.mem_singleton, List.not_mem_nil, or_false] at he
      rcases he with rfl | rfl <;> decide)⟩

/-- C3: `displayPayrollReport` writes the header line and then the `display()` block
of every stored record in stored order; after a sequence of `addEmployee`
calls the stored records are the initial ones followed by the accepted ones
in the order of their acceptance, so rejected duplicates have no block; and
every block ends in a blank line. -/
theorem displayPayrollReport_blocks (io : StdStreams) :
    (∀ p : PayrollSystem, p.displayPayrollReport io
        = "--- Employee Payroll Report ---\n"
            :: (p.employees.map (Employee.display io)).flatten) ∧
    (∀ rs : List Employee, (PayrollSystem.empty.addAll rs).displayPayrollReport io
        = "--- Employee Payroll Report ---\n"
            :: ((PayrollSystem.empty.accepted rs).map (Employee.display io)).flatten) ∧
    (∀ e : Employee, ∃ (front : Output) (last : String),
        e.display io = front ++ [last ++ "\n\n"]) := by
  have h1 : ∀ p : PayrollSystem, p.displayPayrollReport io
        = "--- Employee Payroll Report ---\n"
            :: (p.employees.map (Employee.display io)).flatten := by
    intro p
    unfold PayrollSystem.displayPayrollReport
    rw [PayrollSystem.foldl_display]
    rfl
  refine ⟨h1, ?_, ?_⟩
  · intro rs
    rw [h1, PayrollSystem.addAll_employees]
    rfl
  · intro e
    cases e with
    | fullTime id name salary =>
      exact ⟨[_], _, rfl⟩
    | partTime id name salary hoursWorked =>
      exact ⟨[_, _, _], _, rfl⟩
    | contractual id name salary projectsCompleted =>
      exact ⟨[_, _, _], _, rfl⟩

/-- C4: `isIdUnique id` is true exactly when no stored record has the id `id`; on
the empty collection it is true for every id. -/
theorem isIdUnique_true_iff (p : PayrollSystem) (id : String) :
    (p.isIdUnique id = true ↔ ∀ r ∈ p.employees, r.getId ≠ id) ∧
    PayrollSystem.empty.isIdUnique id = true :=
  ⟨PayrollSystem.isIdUnique_iff p id, rfl⟩

/-! ## Properties of the employee records -/

/-- C5: a `PartTimeEmployee` built from hourly wage `W` and hours `H > 0` stores the
salary `W * H`, and the hourly wage its `display()` derives, salary divided
by hours worked, is `W`: the block shows `W`, `H` and `W * H`. -/
theorem partTime_salary_and_wage (io : StdStreams) (id name : String) (W H : ℚ)
    (hH : 0 < H) :
    (PartTimeEmployee id name W H).salary = W * H ∧
    (PartTimeEmployee id name W H).salary / H = W ∧
    (PartTimeEmployee id name W H).display io
      = ["Employee: " ++ name ++ " (ID: " ++ id ++ ")\n",
         "Hourly Wage: Php " ++ io.showDouble W ++ "\n",
         "Hours Worked: " ++ io.showDouble H ++ "\n",
         "Total Salary: Php " ++ io.showDouble (W * H) ++ "\n\n"] := by
  have hne : H ≠ 0 := ne_of_gt hH
  have hdiv : W * H / H = W := mul_div_cancel_right₀ W hne
  refine ⟨rfl, hdiv, ?_⟩
  simp only [PartTimeEmployee, Employee.display, divide, if_neg hne, showQuotient, hdiv]

/-- Witness of C5: wage 100 and 160 hours, the part-time record of the
specification's scenario. -/
theorem partTime_salary_and_wage_witness :
    (0 : ℚ) < 160 ∧
    (PartTimeEmployee "E2" "John Roe" 100 160).salary = 100 * 160 ∧
    (PartTimeEmployee "E2" "John Roe" 100 160).salary / 160 = 100 ∧
    (PartTimeEmployee "E2" "John Roe" 100 160).display sampleStreams
      = ["Employee: " ++ "John Roe" ++ " (ID: " ++ "E2" ++ ")\n",
         "Hourly Wage: Php " ++ sampleStreams.showDouble 100 ++ "\n",
         "Hours Worked: " ++ sampleStreams.showDouble 160 ++ "\n",
         "Total Salary: Php " ++ sampleStreams.showDouble (100 * 160) ++ "\n\n"] :=
  ⟨by norm_num, partTime_salary_and_wage sampleStreams "E2" "John Roe" 100 160 (by norm_num)⟩

/-- C6: a `ContractualEmployee` built from per-project rate `R` and an integer
project count `C > 0` stores the salary `R * C`, and the per-project rate
its `display()` derives, salary divided by projects completed, is `R`: the
block shows `R`, `C` and `R * C`. -/
theorem contractual_salary_and_rate (io : StdStreams) (id name : String) (R : ℚ) (C : Int)
    (hC : 0 < C) :
    (ContractualEmployee id name R C).salary = R * (C : ℚ) ∧
    (ContractualEmployee id name R C).salary / (C : ℚ) = R ∧
    (ContractualEmployee id name R C).display io
      = ["Employee: " ++ name ++ " (ID: " ++ id ++ ")\n",
         "Contract Payment Per Project: Php " ++ io.showDouble R ++ "\n",
         "Projects Completed: " ++ showInt C ++ "\n",
         "Total Salary: Php " ++ io.showDouble (R * (C : ℚ)) ++ "\n\n"] := by
  have hne : (C : ℚ) ≠ 0 := by
    have : (0 : ℚ) < (C : ℚ) := by exact_mod_cast hC
    exact ne_of_gt this
  have hdiv : R * (C : ℚ) / (C : ℚ) = R := mul_div_cancel_right₀ R hne
  refine ⟨rfl, hdiv, ?_⟩
  simp only [ContractualEmployee, Employee.display, divide, if_neg hne, showQuotient, hdiv]

/-- Witness of C6: rate 2500 and 4 projects. -/
theorem contractual_salary_and_rate_witness :
    (0 : Int) < 4 ∧
    (ContractualEmployee "E3" "Ann Lee" 2500 4).salary = 2500 * ((4 : Int) : ℚ) ∧
    (ContractualEmployee "E3" "Ann Lee" 2500 4).salary / ((4 : Int) : ℚ) = 2500 ∧
    (ContractualEmployee "E3" "Ann Lee" 2500 4).display sampleStreams
      = ["Employee: " ++ "Ann Lee" ++ " (ID: " ++ "E3" ++ ")\n",
         "Contract Payment Per Project: Php " ++ sampleStreams.showDouble 2500 ++ "\n",
         "Projects Completed: " ++ showInt 4 ++ "\n",
         "Total Salary: Php " ++ sampleStreams.showDouble (2500 * ((4 : Int) : ℚ)) ++ "\n\n"] :=
  ⟨by decide, contractual_salary_and_rate sampleStreams "E3" "Ann Lee" 2500 4 (by decide)⟩

/-! ## Properties of the line validators -/

theorem reprompt_none {α : Type} (o : Output) :
    reprompt o (none : Option (α × Output × Input)) = none := rfl

theorem reprompt_some {α : Type} (o : Output) (a : α) (out : Output) (inp : Input) :
    reprompt o (some (a, out, inp)) = some (a, o ++ out, inp) := rfl

theorem reprompt_reprompt {α : Type} (a b : Output) (x : Option (α × Output × Input)) :
    reprompt a (reprompt b x) = reprompt (a ++ b) x := by
  cases x with
  | none => rfl
  | some r => obtain ⟨v, out, inp⟩ := r; simp [reprompt]

theorem getValidatedStringInput_length (prompt : String) :
    ∀ (inp : Input) (s : String) (out : Output) (inp' : Input),
      getValidatedStringInput prompt inp = some (s, out, inp') → inp'.length < inp.length := by
  intro inp
  induction inp with
  | nil => intro s out inp' h; simp [getValidatedStringInput] at h
  | cons l rest ih =>
    intro s out inp' h
    unfold getValidatedStringInput at h
    split at h
    · simp only [Option.some.injEq, Prod.mk.injEq] at h
      obtain ⟨-, -, rfl⟩ := h
      simp
    · cases hr : getValidatedStringInput prompt rest with
      | none => rw [hr] at h; simp [reprompt] at h
      | some r =>
        obtain ⟨s1, o1, i1⟩ := r
        rw [hr] at h
        simp only [reprompt, Option.some.injEq, Prod.mk.injEq] at h
        obtain ⟨-, -, rfl⟩ := h
        have := ih s1 o1 i1 hr
        simp only [List.length_cons]
        omega

theorem getValidatedNameInputLoop_fuel (prompt : String) :
    ∀ (f g : Nat) (inp : Input), inp.length < f → inp.length < g →
      getValidatedNameInputLoop prompt f inp = getValidatedNameInputLoop prompt g inp := by
  intro f
  induction f with
  | zero => intro g inp hf; omega
  | succ f ih =>
    intro g inp hf hg
    cases g with
    | zero => omega
    | succ g =>
      unfold getValidatedNameInputLoop
      cases hr : getValidatedStringInput prompt inp with
      | none => rfl
      | some r =>
        obtain ⟨name, out, inp'⟩ := r
        have hlen := getValidatedStringInput_length prompt inp name out inp' hr
        simp only
        rw [ih g inp' (by omega) (by omega)]

theorem getValidatedNameInput_cons (prompt : String) (l : Line) (rest : Input) :
    getValidatedNameInput prompt (l :: rest)
      = if l = [] then
          reprompt [prompt, "Invalid input. Please enter a non-empty value.\n"]
            (getValidatedNameInput prompt rest)
        else if isNameValidChars l = true then some (String.mk l, [prompt], rest)
        else reprompt [prompt, "Invalid input. Name should contain only alphabetic characters.\n"]
            (getValidatedNameInput prompt rest) := by
  unfold getValidatedNameInput
  by_cases hl : l = []
  · subst hl
    simp only [if_true, List.length_cons]
    rw [getValidatedNameInputLoop, getValidatedNameInputLoop]
    simp only [getValidatedStringInput, List.isEmpty_nil, Bool.not_true, Bool.false_eq_true,
      if_false]
    cases hr : getValidatedStringInput prompt rest with
    | none => rfl
    | some r =>
      obtain ⟨name, out, inp'⟩ := r
      have hlen := getValidatedStringInput_length prompt rest name out inp' hr
      simp only [reprompt_some]
      rw [getValidatedNameInputLoop_fuel prompt (rest.length + 1) rest.length inp'
        (by omega) hlen]
      by_cases hv : isNameValid name = true
      · simp [hv, reprompt_some]
      · simp [hv, reprompt_reprompt]
  · have hne : (!l.isEmpty) = true := by
      cases l with
      | nil => exact absurd rfl hl
      | cons c cs => rfl
    simp only [hl, if_false, List.length_cons]
    rw [getValidatedNameInputLoop]
    simp only [getValidatedStringInput, hne, if_true]
    have hvalid : isNameValid (String.mk l) = isNameValidChars l := rfl
    rw [hvalid]
    by_cases hv : isNameValidChars l = true
    · simp [hv]
    · simp [hv]

theorem isNameValidChars_iff (l : List Char) :
    isNameValidChars l = true ↔ ∀ ch ∈ l, isalpha ch = true ∨ isspace ch = true := by
  induction l with
  | nil => simp [isNameValidChars]
  | cons c cs ih =>
    unfold isNameValidChars
    by_cases hc : isalpha c = true ∨ isspace c = true
    · have : (!isalpha c && !isspace c) = false := by
        rcases hc with h | h <;> simp [h]
      simp [this, ih, hc]
    · have : (!isalpha c && !isspace c) = true := by
        simp only [not_or, Bool.not_eq_true] at hc
        simp [hc.1, hc.2]
      simp [this, hc]
theorem not_letter_of_isdigit_or_ispunct (ch : Char)
    (h : isdigit ch = true ∨ ispunct ch = true) :
    ¬ (isalpha ch = true ∨ isspace ch = true) := by
  simp only [isdigit, ispunct, isalpha, isspace, Bool.and_eq_true, Bool.or_eq_true,
    decide_eq_true_eq] at *
  omega

theorem getValidatedNameInput_rejected (prompt : String) (l : Line) (rest : Input)
    (h : ¬ (l ≠ [] ∧ ∀ ch ∈ l, isalpha ch = true ∨ isspace ch = true)) :
    ∃ msg : String, getValidatedNameInput prompt (l :: rest)
      = reprompt [prompt, msg] (getValidatedNameInput prompt rest) := by
  rw [getValidatedNameInput_cons]
  by_cases hl : l = []
  · exact ⟨_, by rw [if_pos hl]⟩
  · have hv : ¬ isNameValidChars l = true := by
      intro hv
      exact h ⟨hl, (isNameValidChars_iff l).1 hv⟩
    exact ⟨_, by rw [if_neg hl, if_neg hv]⟩

theorem reprompt_ne_accept {α : Type} (prompt msg : String) (x : Option (α × Output × Input))
    (a : α) (inp : Input) : reprompt [prompt, msg] x ≠ some (a, [prompt], inp) := by
  cases x with
  | none => simp [reprompt_none]
  | some r =>
    obtain ⟨v, out, i⟩ := r
    simp [reprompt_some]

/-- C7: the name validator accepts the line at the head of the input (returns it
unchanged after a single prompt) exactly when the line is non-empty and each
of its characters is alphabetic or whitespace; any other line is passed over
with an error message and the loop goes on with the next line, which is the
case of every line with a digit or a punctuation character and of the empty
line. -/
theorem getValidatedNameInput_accepts_iff (prompt : String) (l : Line) (rest : Input) :
    (getValidatedNameInput prompt (l :: rest) = some (String.mk l, [prompt], rest)
      ↔ (l ≠ [] ∧ ∀ ch ∈ l, isalpha ch = true ∨ isspace ch = true)) ∧
    (¬ (l ≠ [] ∧ ∀ ch ∈ l, isalpha ch = true ∨ isspace ch = true) →
      ∃ msg : String, getValidatedNameInput prompt (l :: rest)
        = reprompt [prompt, msg] (getValidatedNameInput prompt rest)) ∧
    ((∃ ch ∈ l, isdigit ch = true ∨ ispunct ch = true) →
      getValidatedNameInput prompt (l :: rest)
        = reprompt [prompt, "Invalid input. Name should contain only alphabetic characters.\n"]
            (getValidatedNameInput prompt rest)) ∧
    getValidatedNameInput prompt ([] :: rest)
      = reprompt [prompt, "Invalid input. Please enter a non-empty value.\n"]
          (getValidatedNameInput prompt rest) := by
  refine ⟨⟨?_, ?_⟩, getValidatedNameInput_rejected prompt l rest, ?_, ?_⟩
  · intro hacc
    by_contra hrej
    obtain ⟨msg, hmsg⟩ := getValidatedNameInput_rejected prompt l rest hrej
    rw [hmsg] at hacc
    exact reprompt_ne_accept prompt msg _ _ _ hacc
  · rintro ⟨hl, hall⟩
    rw [getValidatedNameInput_cons, if_neg hl, if_pos ((isNameValidChars_iff l).2 hall)]
  · rintro ⟨ch, hch, hbad⟩
    have hl : l ≠ [] := List.ne_nil_of_mem hch
    have hv : ¬ isNameValidChars l = true := by
      intro hv
      exact not_letter_of_isdigit_or_ispunct ch hbad ((isNameValidChars_iff l).1 hv ch hch)
    rw [getValidatedNameInput_cons, if_neg hl, if_neg hv]
  · rw [getValidatedNameInput_cons, if_pos rfl]

/-- Witness of C7: `Jane Doe` is accepted and returned as it is; `Bob7`, which has a
digit, is passed over and the next line `Bob` is returned. -/
theorem getValidatedNameInput_accepts_iff_witness :
    getValidatedNameInput "Enter Name: " ["Jane Doe".data, "100".data]
      = some ("Jane Doe", ["Enter Name: "], ["100".data]) ∧
    getValidatedNameInput "Enter Name: " ["Bob7".data, "Bob".data]
      = some ("Bob", ["Enter Name: ",
          "Invalid input. Name should contain only alphabetic characters.\n",
          "Enter Name: "], []) :=
  ⟨(getValidatedNameInput_accepts_iff "Enter Name: " "Jane Doe".data ["100".data]).1.2
      (by decide),
   ((getValidatedNameInput_accepts_iff "Enter Name: " "Bob7".data ["Bob".data]).2.2.1
      ⟨'7', by decide, by decide⟩).trans (by decide)⟩

/-! ## Properties of the numeric validators -/

theorem getValidatedDoubleInputLoop_eq (io : StdStreams) (prompt : String) :
    ∀ (fuel : Nat) (inp : Input), getValidatedDoubleInputLoop io prompt fuel inp
      = promptLoop io.readDouble (fun v => decide (v ≥ 0)) prompt
          "Invalid input. Please enter a valid number.\n" fuel inp := by
  intro fuel
  induction fuel with
  | zero => intro inp; rfl
  | succ f ih =>
    intro inp
    unfold getValidatedDoubleInputLoop promptLoop
    rcases hx : extract io.readDouble inp with ⟨_ | value, inp'⟩
    · simp only [ih]
    · simp only [ih, decide_eq_true_eq]

theorem getValidatedIntInputLoop_eq (io : StdStreams) (prompt : String) :
    ∀ (fuel : Nat) (inp : Input), getValidatedIntInputLoop io prompt fuel inp
      = promptLoop io.readInt (fun v => decide (v > 0)) prompt
          "Invalid input. Please enter a positive integer.\n" fuel inp := by
  intro fuel
  induction fuel with
  | zero => intro inp; rfl
  | succ f ih =>
    intro inp
    unfold getValidatedIntInputLoop promptLoop
    rcases hx : extract io.readInt inp with ⟨_ | value, inp'⟩
    · simp only [ih]
    · simp only [ih, decide_eq_true_eq]

section PromptLoop

variable {α : Type} (read : Line → Option α × Line) (ok : α → Bool) (prompt msg : String)

theorem promptLoop_nil : ∀ fuel : Nat, promptLoop read ok prompt msg fuel [] = none := by
  intro fuel
  induction fuel with
  | zero => rfl
  | succ f ih =>
    unfold promptLoop
    simp only [extract, skipws, ignoreLine, ih, reprompt_none]

theorem extract_cons_blank (l : Line) (rest : Input) (h : leadingToken read l = none) :
    extract read (l :: rest) = extract read rest := by
  unfold leadingToken at h
  unfold extract
  cases hd : l.dropWhile isspace with
  | nil => simp only [skipws, hd]
  | cons c cs => rw [hd] at h; simp at h

theorem extract_cons_token (l : Line) (rest : Input) (t : Option α × Line)
    (h : leadingToken read l = some t) :
    extract read (l :: rest) = (t.1, t.2 :: rest) := by
  unfold leadingToken at h
  unfold extract
  cases hd : l.dropWhile isspace with
  | nil => rw [hd] at h; simp at h
  | cons c cs =>
    rw [hd] at h
    simp only [Option.some.injEq] at h
    simp only [skipws, hd, h]

theorem promptLoop_eq_firstAccepted :
    ∀ (inp : Input) (fuel : Nat), inp.length < fuel →
      promptLoop read ok prompt msg fuel inp = firstAccepted read ok prompt msg inp := by
  intro inp
  induction inp with
  | nil =>
    intro fuel _
    rw [promptLoop_nil]
    rfl
  | cons l rest ih =>
    intro fuel hfuel
    cases fuel with
    | zero => omega
    | succ f =>
      have hf : rest.length < f := by simpa using hfuel
      cases ht : leadingToken read l with
      | none =>
        have hstep : promptLoop read ok prompt msg (f + 1) (l :: rest)
            = promptLoop read ok prompt msg (f + 1) rest := by
          rw [promptLoop, promptLoop, extract_cons_blank read l rest ht]
        rw [hstep, ih (f + 1) (by omega)]
        simp only [firstAccepted, ht]
      | some t =>
        obtain ⟨r, rem⟩ := t
        rw [promptLoop, extract_cons_token read l rest (r, rem) ht]
        cases r with
        | none => simp only [ignoreLine, ih f hf, firstAccepted, ht]
        | some v => simp only [ignoreLine, ih f hf, firstAccepted, ht]

theorem firstAccepted_some_iff (v : α) (inp' : Input) :
    ∀ inp : Input, (∃ out, firstAccepted read ok prompt msg inp = some (v, out, inp')) ↔
      ∃ (pre : Input) (l : Line) (rest : Input) (rem : Line),
        inp = pre ++ l :: rest ∧
        (∀ m ∈ pre, ∀ w r, leadingToken read m = some (some w, r) → ok w = false) ∧
        leadingToken read l = some (some v, rem) ∧ ok v = true ∧ inp' = rem :: rest := by
  intro inp
  induction inp with
  | nil => simp [firstAccepted]
  | cons l0 rest0 ih =>
    -- a line that is passed over: the search goes on in `rest0`
    have hskip : (∀ w r, leadingToken read l0 = some (some w, r) → ok w = false) →
        ((∃ out, firstAccepted read ok prompt msg rest0 = some (v, out, inp')) ↔
          ∃ (pre : Input) (l : Line) (rest : Input) (rem : Line),
            l0 :: rest0 = pre ++ l :: rest ∧
            (∀ m ∈ pre, ∀ w r, leadingToken read m = some (some w, r) → ok w = false) ∧
            leadingToken read l = some (some v, rem) ∧ ok v = true ∧ inp' = rem :: rest) := by
      intro hrej
      rw [ih]
      constructor
      · rintro ⟨pre, l, rest, rem, rfl, hpre, hl, hok, hin⟩
        refine ⟨l0 :: pre, l, rest, rem, rfl, ?_, hl, hok, hin⟩
        intro m hm
        rcases List.mem_cons.1 hm with rfl | hm
        · exact hrej
        · exact hpre m hm
      · rintro ⟨pre, l, rest, rem, heq, hpre, hl, hok, hin⟩
        cases pre with
        | nil =>
          simp only [List.nil_append, List.cons.injEq] at heq
          obtain ⟨rfl, rfl⟩ := heq
          have := hrej v rem hl
          rw [hok] at this
          exact absurd this (by simp)
        | cons p pre =>
          simp only [List.cons_append, List.cons.injEq] at heq
          obtain ⟨rfl, rfl⟩ := heq
          exact ⟨pre, l, rest, rem, rfl, fun m hm => hpre m (List.mem_cons_of_mem _ hm),
            hl, hok, hin⟩
    have hrep : ∀ x : Option (α × Output × Input),
        (∃ out, reprompt [prompt, msg] x = some (v, out, inp')) ↔
          (∃ out, x = some (v, out, inp')) := by
      intro x
      cases x with
      | none => simp [reprompt_none]
      | some r =>
        obtain ⟨a, o, i⟩ := r
        simp [reprompt_some]
    cases ht : leadingToken read l0 with
    | none =>
      simp only [firstAccepted, ht]
      exact hskip (by intro w r h; rw [ht] at h; simp at h)
    | some t =>
      obtain ⟨r, rem0⟩ := t
      cases r with
      | none =>
        simp only [firstAccepted, ht]
        rw [hrep]
        exact hskip (by intro w r h; rw [ht] at h; simp at h)
      | some v0 =>
        by_cases hok0 : ok v0 = true
        · simp only [firstAccepted, ht, hok0, if_true]
          constructor
          · rintro ⟨out, hout⟩
            simp only [Option.some.injEq, Prod.mk.injEq] at hout
            obtain ⟨rfl, -, rfl⟩ := hout
            exact ⟨[], l0, rest0, rem0, rfl, by simp, ht, hok0, rfl⟩
          · rintro ⟨pre, l, rest, rem, heq, hpre, hl, hok, hin⟩
            cases pre with
            | nil =>
              simp only [List.nil_append, List.cons.injEq] at heq
              obtain ⟨rfl, rfl⟩ := heq
              rw [hl] at ht
              simp only [Option.some.injEq, Prod.mk.injEq] at ht
              obtain ⟨rfl, rfl⟩ := ht
              exact ⟨_, by rw [hin]⟩
            | cons p pre =>
              simp only [List.cons_append, List.cons.injEq] at heq
              obtain ⟨rfl, rfl⟩ := heq
              have := hpre l0 (List.mem_cons_self _ _) v0 rem0 ht
              rw [hok0] at this
              exact absurd this (by simp)
        · have hfa : firstAccepted read ok prompt msg (l0 :: rest0)
              = reprompt [prompt, msg] (firstAccepted read ok prompt msg rest0) := by
            simp only [firstAccepted, ht, hok0]
            rfl
          rw [hfa, hrep]
          refine hskip ?_
          intro w r h
          rw [ht] at h
          simp only [Option.some.injEq, Prod.mk.injEq] at h
          obtain ⟨rfl, -⟩ := h
          simpa using hok0

theorem firstAccepted_none_of_all_rejected :
    ∀ inp : Input,
      (∀ m ∈ inp, ∀ w r, leadingToken read m = some (some w, r) → ok w = false) →
      firstAccepted read ok prompt msg inp = none := by
  intro inp h
  cases hr : firstAccepted read ok prompt msg inp with
  | none => rfl
  | some res =>
    obtain ⟨v, out, inp'⟩ := res
    obtain ⟨pre, l, rest, rem, rfl, -, hl, hok, -⟩ :=
      (firstAccepted_some_iff read ok prompt msg v inp' inp).1 ⟨out, hr⟩
    have := h l (by simp) v rem hl
    rw [hok] at this
    exact absurd this (by simp)

end PromptLoop

theorem getValidatedDoubleInput_eq (io : StdStreams) (prompt : String) (inp : Input) :
    getValidatedDoubleInput io prompt inp
      = firstAccepted io.readDouble (fun v => decide (v ≥ 0)) prompt
          "Invalid input. Please enter a valid number.\n" inp := by
  unfold getValidatedDoubleInput
  rw [getValidatedDoubleInputLoop_eq, promptLoop_eq_firstAccepted _ _ _ _ _ _ (Nat.lt_succ_self _)]

theorem getValidatedIntInput_eq (io : StdStreams) (prompt : String) (inp : Input) :
    getValidatedIntInput io prompt inp
      = firstAccepted io.readInt (fun v => decide (v > 0)) prompt
          "Invalid input. Please enter a positive integer.\n" inp := by
  unfold getValidatedIntInput
  rw [getValidatedIntInputLoop_eq, promptLoop_eq_firstAccepted _ _ _ _ _ _ (Nat.lt_succ_self _)]
/-- C8: the input being the lines still to be read, and the token of a line the one
`std::cin >> value` meets on it, `getValidatedDoubleInput` returns `v` (and
leaves `inp'`) exactly when the input splits into lines whose token is
missing, does not parse or is negative, followed by a line whose token
parses to `v` with `v ≥ 0`: it returns the first accepted token, never stops
on a rejected one, returns only values `≥ 0`, and does not return when no
line is accepted.  The same holds of `getValidatedIntInput` with the accept
condition `v > 0`. -/
theorem numeric_validators_first_accepted (io : StdStreams) (prompt : String) :
    (∀ (inp : Input) (v : ℚ) (inp' : Input),
      (∃ out, getValidatedDoubleInput io prompt inp = some (v, out, inp')) ↔
        ∃ (pre : Input) (l : Line) (rest : Input) (rem : Line),
          inp = pre ++ l :: rest ∧
          (∀ m ∈ pre, ∀ w r, leadingToken io.readDouble m = some (some w, r) → w < 0) ∧
          leadingToken io.readDouble l = some (some v, rem) ∧ 0 ≤ v ∧ inp' = rem :: rest) ∧
    (∀ (inp : Input) (v : ℚ) (out : Output) (inp' : Input),
      getValidatedDoubleInput io prompt inp = some (v, out, inp') → 0 ≤ v) ∧
    (∀ inp : Input,
      (∀ m ∈ inp, ∀ w r, leadingToken io.readDouble m = some (some w, r) → w < 0) →
      getValidatedDoubleInput io prompt inp = none) ∧
    (∀ (inp : Input) (v : Int) (inp' : Input),
      (∃ out, getValidatedIntInput io prompt inp = some (v, out, inp')) ↔
        ∃ (pre : Input) (l : Line) (rest : Input) (rem : Line),
          inp = pre ++ l :: rest ∧
          (∀ m ∈ pre, ∀ w r, leadingToken io.readInt m = some (some w, r) → w ≤ 0) ∧
          leadingToken io.readInt l = some (some v, rem) ∧ 0 < v ∧ inp' = rem :: rest) ∧
    (∀ (inp : Input) (v : Int) (out : Output) (inp' : Input),
      getValidatedIntInput io prompt inp = some (v, out, inp') → 0 < v) ∧
    (∀ inp : Input,
      (∀ m ∈ inp, ∀ w r, leadingToken io.readInt m = some (some w, r) → w ≤ 0) →
      getValidatedIntInput io prompt inp = none) := by
  have hD : ∀ (inp : Input) (v : ℚ) (inp' : Input),
      (∃ out, getValidatedDoubleInput io prompt inp = some (v, out, inp')) ↔
        ∃ (pre : Input) (l : Line) (rest : Input) (rem : Line),
          inp = pre ++ l :: rest ∧
          (∀ m ∈ pre, ∀ w r, leadingToken io.readDouble m = some (some w, r) → w < 0) ∧
          leadingToken io.readDouble l = some (some v, rem) ∧ 0 ≤ v ∧ inp' = rem :: rest := by
    intro inp v inp'
    rw [getValidatedDoubleInput_eq, firstAccepted_some_iff]
    simp only [ge_iff_le, decide_eq_false_iff_not, decide_eq_true_eq, not_le]
  have hI : ∀ (inp : Input) (v : Int) (inp' : Input),
      (∃ out, getValidatedIntInput io prompt inp = some (v, out, inp')) ↔
        ∃ (pre : Input) (l : Line) (rest : Input) (rem : Line),
          inp = pre ++ l :: rest ∧
          (∀ m ∈ pre, ∀ w r, leadingToken io.readInt m = some (some w, r) → w ≤ 0) ∧
          leadingToken io.readInt l = some (some v, rem) ∧ 0 < v ∧ inp' = rem :: rest := by
    intro inp v inp'
    rw [getValidatedIntInput_eq, firstAccepted_some_iff]
    simp only [gt_iff_lt, decide_eq_false_iff_not, decide_eq_true_eq, not_lt]
  refine ⟨hD, ?_, ?_, hI, ?_, ?_⟩
  · intro inp v out inp' h
    obtain ⟨_, _, _, _, _, _, _, hv, _⟩ := (hD inp v inp').1 ⟨out, h⟩
    exact hv
  · intro inp h
    rw [getValidatedDoubleInput_eq]
    apply firstAccepted_none_of_all_rejected
    intro m hm w r hw
    simpa using h m hm w r hw
  · intro inp v out inp' h
    obtain ⟨_, _, _, _, _, _, _, hv, _⟩ := (hI inp v inp').1 ⟨out, h⟩
    exact hv
  · intro inp h
    rw [getValidatedIntInput_eq]
    apply firstAccepted_none_of_all_rejected
    intro m hm w r hw
    simpa using h m hm w r hw

/-- Witness of C8 on sample sessions.  For the hours prompt the lines `abc`, `-5`,
an empty line and `7.5 9` are entered: the first two are rejected, the empty
line is passed over, `7.5` is returned and ` 9` stays unread.  For the
project count `x`, `0`, `-3`, `12` are entered and `12` is returned. -/
theorem numeric_validators_first_accepted_witness :
    (getValidatedDoubleInput sampleStreams "Enter Hours Worked: "
        ["abc".data, "-5".data, [], "7.5 9".data, "8".data]
      = some (15 / 2, ["Enter Hours Worked: ", "Invalid input. Please enter a valid number.\n",
          "Enter Hours Worked: ", "Invalid input. Please enter a valid number.\n",
          "Enter Hours Worked: "], [" 9".data, "8".data]) ∧ (0 : ℚ) ≤ 15 / 2) ∧
    (getValidatedIntInput sampleStreams "Enter Projects Completed: "
        ["x".data, "0".data, "-3".data, "12".data]
      = some (12, ["Enter Projects Completed: ",
          "Invalid input. Please enter a positive integer.\n", "Enter Projects Completed: ",
          "Invalid input. Please enter a positive integer.\n", "Enter Projects Completed: ",
          "Invalid input. Please enter a positive integer.\n", "Enter Projects Completed: "],
          [[]]) ∧ (0 : Int) < 12) :=
  ⟨⟨by decide!,
    (numeric_validators_first_accepted sampleStreams "Enter Hours Worked: ").2.1
      ["abc".data, "-5".data, [], "7.5 9".data, "8".data] (15 / 2)
      ["Enter Hours Worked: ", "Invalid input. Please enter a valid number.\n",
        "Enter Hours Worked: ", "Invalid input. Please enter a valid number.\n",
        "Enter Hours Worked: "]
      [" 9".data, "8".data] (by decide!)⟩,
   ⟨by decide!,
    (numeric_validators_first_accepted sampleStreams "Enter Projects Completed: ").2.2.2.2.1
      ["x".data, "0".data, "-3".data, "12".data] 12
      ["Enter Projects Completed: ",
        "Invalid input. Please enter a positive integer.\n", "Enter Projects Completed: ",
        "Invalid input. Please enter a positive integer.\n", "Enter Projects Completed: ",
        "Invalid input. Please enter a positive integer.\n", "Enter Projects Completed: "]
      [[]] (by decide!)⟩⟩

/-! ## Properties of the add flows of the menu -/

theorem reprompt_eq_some {α : Type} (o : Output) (x : Option (α × Output × Input))
    (a : α) (out : Output) (inp : Input) (h : reprompt o x = some (a, out, inp)) :
    ∃ out', x = some (a, out', inp) ∧ out = o ++ out' := by
  cases x with
  | none => simp [reprompt_none] at h
  | some r =>
    obtain ⟨a1, o1, i1⟩ := r
    simp only [reprompt_some, Option.some.injEq, Prod.mk.injEq] at h
    obtain ⟨rfl, rfl, rfl⟩ := h
    exact ⟨o1, rfl, rfl⟩

theorem getValidatedStringInput_quiet (prompt : String) (hp : prompt ≠ "Duplicate ID!\n") :
    ∀ (inp : Input) (s : String) (out : Output) (inp' : Input),
      getValidatedStringInput prompt inp = some (s, out, inp') → "Duplicate ID!\n" ∉ out := by
  intro inp
  induction inp with
  | nil => intro s out inp' h; simp [getValidatedStringInput] at h
  | cons l rest ih =>
    intro s out inp' h
    unfold getValidatedStringInput at h
    split at h
    · simp only [Option.some.injEq, Prod.mk.injEq] at h
      obtain ⟨-, rfl, -⟩ := h
      simpa using hp.symm
    · obtain ⟨out', hx, rfl⟩ := reprompt_eq_some _ _ _ _ _ h
      have := ih s out' inp' hx
      simp only [List.cons_append, List.nil_append, List.mem_cons, not_or]
      exact ⟨hp.symm, by decide, this⟩

theorem getValidatedNameInputLoop_quiet (prompt : String) (hp : prompt ≠ "Duplicate ID!\n") :
    ∀ (fuel : Nat) (inp : Input) (s : String) (out : Output) (inp' : Input),
      getValidatedNameInputLoop prompt fuel inp = some (s, out, inp') →
        "Duplicate ID!\n" ∉ out := by
  intro fuel
  induction fuel with
  | zero => intro inp s out inp' h; simp [getValidatedNameInputLoop] at h
  | succ f ih =>
    intro inp s out inp' h
    unfold getValidatedNameInputLoop at h
    cases hr : getValidatedStringInput prompt inp with
    | none => rw [hr] at h; simp at h
    | some r =>
      obtain ⟨name, o1, i1⟩ := r
      have hq := getValidatedStringInput_quiet prompt hp inp name o1 i1 hr
      rw [hr] at h
      simp only at h
      split at h
      · simp only [Option.some.injEq, Prod.mk.injEq] at h
        obtain ⟨-, rfl, -⟩ := h
        exact hq
      · obtain ⟨out', hx, rfl⟩ := reprompt_eq_some _ _ _ _ _ h
        have := ih i1 s out' inp' hx
        simp only [List.mem_append, List.mem_singleton, not_or]
        exact ⟨⟨hq, by decide⟩, this⟩

theorem getValidatedUniqueIdLoop_spec (payroll : PayrollSystem) (prompt : String)
    (hp : prompt ≠ "Duplicate ID!\n") :
    ∀ (fuel : Nat) (inp : Input) (id : String) (out : Output) (inp' : Input),
      getValidatedUniqueIdLoop payroll prompt fuel inp = some (id, out, inp') →
        payroll.isIdUnique id = true ∧ "Duplicate ID!\n" ∉ out := by
  intro fuel
  induction fuel with
  | zero => intro inp s out inp' h; simp [getValidatedUniqueIdLoop] at h
  | succ f ih =>
    intro inp s out inp' h
    unfold getValidatedUniqueIdLoop at h
    cases hr : getValidatedStringInput prompt inp with
    | none => rw [hr] at h; simp at h
    | some r =>
      obtain ⟨name, o1, i1⟩ := r
      have hq := getValidatedStringInput_quiet prompt hp inp name o1 i1 hr
      rw [hr] at h
      simp only at h
      split at h
      · rename_i huniq
        simp only [Option.some.injEq, Prod.mk.injEq] at h
        obtain ⟨rfl, rfl, -⟩ := h
        exact ⟨huniq, hq⟩
      · obtain ⟨out', hx, rfl⟩ := reprompt_eq_some _ _ _ _ _ h
        obtain ⟨hu, hq'⟩ := ih i1 s out' inp' hx
        refine ⟨hu, ?_⟩
        simp only [List.mem_append, List.mem_singleton, not_or]
        exact ⟨⟨hq, by decide⟩, hq'⟩

theorem getValidatedUniqueIdLoop_fuel (payroll : PayrollSystem) (prompt : String) :
    ∀ (f g : Nat) (inp : Input), inp.length < f → inp.length < g →
      getValidatedUniqueIdLoop payroll prompt f inp
        = getValidatedUniqueIdLoop payroll prompt g inp := by
  intro f
  induction f with
  | zero => intro g inp hf; omega
  | succ f ih =>
    intro g inp hf hg
    cases g with
    | zero => omega
    | succ g =>
      unfold getValidatedUniqueIdLoop
      cases hr : getValidatedStringInput prompt inp with
      | none => rfl
      | some r =>
        obtain ⟨id, out, inp'⟩ := r
        have hlen := getValidatedStringInput_length prompt inp id out inp' hr
        simp only
        rw [ih g inp' (by omega) (by omega)]

theorem firstAccepted_quiet {α : Type} (read : Line → Option α × Line) (ok : α → Bool)
    (prompt msg : String) (hp : prompt ≠ "Duplicate ID!\n") (hm : msg ≠ "Duplicate ID!\n") :
    ∀ (inp : Input) (v : α) (out : Output) (inp' : Input),
      firstAccepted read ok prompt msg inp = some (v, out, inp') →
        ok v = true ∧ "Duplicate ID!\n" ∉ out := by
  intro inp
  induction inp with
  | nil => intro v out inp' h; simp [firstAccepted] at h
  | cons l rest ih =>
    intro v out inp' h
    have hrep : reprompt [prompt, msg] (firstAccepted read ok prompt msg rest)
        = some (v, out, inp') → ok v = true ∧ "Duplicate ID!\n" ∉ out := by
      intro h
      obtain ⟨out', hx, rfl⟩ := reprompt_eq_some _ _ _ _ _ h
      obtain ⟨hv, hq⟩ := ih v out' inp' hx
      refine ⟨hv, ?_⟩
      simp only [List.cons_append, List.nil_append, List.mem_cons, not_or]
      exact ⟨hp.symm, hm.symm, hq⟩
    unfold firstAccepted at h
    split at h
    · exact ih v out inp' h
    · split at h
      · rename_i hok
        simp only [Option.some.injEq, Prod.mk.injEq] at h
        obtain ⟨rfl, rfl, -⟩ := h
        exact ⟨hok, by simpa using hp.symm⟩
      · exact hrep h
    · exact hrep h

theorem getValidatedDoubleInput_spec (io : StdStreams) (prompt : String)
    (hp : prompt ≠ "Duplicate ID!\n") (inp : Input) (v : ℚ) (out : Output) (inp' : Input)
    (h : getValidatedDoubleInput io prompt inp = some (v, out, inp')) :
    0 ≤ v ∧ "Duplicate ID!\n" ∉ out := by
  rw [getValidatedDoubleInput_eq] at h
  have := firstAccepted_quiet _ _ _ _ hp (by decide) inp v out inp' h
  simpa using this

theorem getValidatedIntInput_spec (io : StdStreams) (prompt : String)
    (hp : prompt ≠ "Duplicate ID!\n") (inp : Input) (v : Int) (out : Output) (inp' : Input)
    (h : getValidatedIntInput io prompt inp = some (v, out, inp')) :
    0 < v ∧ "Duplicate ID!\n" ∉ out := by
  rw [getValidatedIntInput_eq] at h
  have := firstAccepted_quiet _ _ _ _ hp (by decide) inp v out inp' h
  simpa using this
theorem caseFullTime_spec (io : StdStreams) (payroll p' : PayrollSystem) (inp inp' : Input)
    (out : Output) (h : caseFullTime io payroll inp = some (p', out, inp')) :
    ∃ (id name : String) (salary : ℚ),
      payroll.isIdUnique id = true ∧ 0 ≤ salary ∧
      p' = ⟨payroll.employees ++ [FullTimeEmployee id name salary]⟩ ∧
      payroll.addEmployee (FullTimeEmployee id name salary) = (p', []) ∧
      "Duplicate ID!\n" ∉ out := by
  unfold caseFullTime at h
  cases h1 : getValidatedUniqueId payroll "Enter ID: " inp with
  | none => rw [h1] at h; simp at h
  | some r1 =>
    obtain ⟨id, o1, inp1⟩ := r1
    rw [h1] at h
    simp only at h
    cases h2 : getValidatedNameInput "Enter Name: " inp1 with
    | none => rw [h2] at h; simp at h
    | some r2 =>
      obtain ⟨name, o2, inp2⟩ := r2
      rw [h2] at h
      simp only at h
      cases h3 : getValidatedDoubleInput io "Enter Salary: " inp2 with
      | none => rw [h3] at h; simp at h
      | some r3 =>
        obtain ⟨salary, o3, inp3⟩ := r3
        rw [h3] at h
        simp only at h
        obtain ⟨hu, q1⟩ := getValidatedUniqueIdLoop_spec payroll _ (by decide) _ _ _ _ _ h1
        have q2 := getValidatedNameInputLoop_quiet _ (by decide) _ _ _ _ _ h2
        obtain ⟨hs, q3⟩ := getValidatedDoubleInput_spec io _ (by decide) _ _ _ _ h3
        have hadd := PayrollSystem.addEmployee_of_isIdUnique payroll
          (FullTimeEmployee id name salary) hu
        rw [hadd] at h
        simp only [Option.some.injEq, Prod.mk.injEq] at h
        obtain ⟨rfl, rfl, -⟩ := h
        refine ⟨id, name, salary, hu, hs, rfl, hadd, ?_⟩
        simp only [List.mem_append, not_or, List.not_mem_nil, not_false_eq_true, and_true]
        exact ⟨⟨q1, q2⟩, q3⟩

theorem casePartTime_spec (io : StdStreams) (payroll p' : PayrollSystem) (inp inp' : Input)
    (out : Output) (h : casePartTime io payroll inp = some (p', out, inp')) :
    ∃ (id name : String) (hourlyWage hoursWorked : ℚ),
      payroll.isIdUnique id = true ∧ 0 ≤ hourlyWage ∧ 0 ≤ hoursWorked ∧
      p' = ⟨payroll.employees ++ [PartTimeEmployee id name hourlyWage hoursWorked]⟩ ∧
      payroll.addEmployee (PartTimeEmployee id name hourlyWage hoursWorked) = (p', []) ∧
      "Duplicate ID!\n" ∉ out := by
  unfold casePartTime at h
  cases h1 : getValidatedUniqueId payroll "Enter ID: " inp with
  | none => rw [h1] at h; simp at h
  | some r1 =>
    obtain ⟨id, o1, inp1⟩ := r1
    rw [h1] at h
    simp only at h
    cases h2 : getValidatedNameInput "Enter Name: " inp1 with
    | none => rw [h2] at h; simp at h
    | some r2 =>
      obtain ⟨name, o2, inp2⟩ := r2
      rw [h2] at h
      simp only at h
      cases h3 : getValidatedDoubleInput io "Enter Hourly Wage: " inp2 with
      | none => rw [h3] at h; simp at h
      | some r3 =>
        obtain ⟨wage, o3, inp3⟩ := r3
        rw [h3] at h
        simp only at h
        cases h4 : getValidatedDoubleInput io "Enter Hours Worked: " inp3 with
        | none => rw [h4] at h; simp at h
        | some r4 =>
          obtain ⟨hours, o4, inp4⟩ := r4
          rw [h4] at h
          simp only at h
          obtain ⟨hu, q1⟩ := getValidatedUniqueIdLoop_spec payroll _ (by decide) _ _ _ _ _ h1
          have q2 := getValidatedNameInputLoop_quiet _ (by decide) _ _ _ _ _ h2
          obtain ⟨hw, q3⟩ := getValidatedDoubleInput_spec io _ (by decide) _ _ _ _ h3
          obtain ⟨hh, q4⟩ := getValidatedDoubleInput_spec io _ (by decide) _ _ _ _ h4
          have hadd := PayrollSystem.addEmployee_of_isIdUnique payroll
            (PartTimeEmployee id name wage hours) hu
          rw [hadd] at h
          simp only [Option.some.injEq, Prod.mk.injEq] at h
          obtain ⟨rfl, rfl, -⟩ := h
          refine ⟨id, name, wage, hours, hu, hw, hh, rfl, hadd, ?_⟩
          simp only [List.mem_append, not_or, List.not_mem_nil, not_false_eq_true, and_true]
          exact ⟨⟨⟨q1, q2⟩, q3⟩, q4⟩

theorem caseContractual_spec (io : StdStreams) (payroll p' : PayrollSystem)
    (inp inp' : Input) (out : Output)
    (h : caseContractual io payroll inp = some (p', out, inp')) :
    ∃ (id name : String) (paymentPerProject : ℚ) (projectsCompleted : Int),
      payroll.isIdUnique id = true ∧ 0 ≤ paymentPerProject ∧ 0 < projectsCompleted ∧
      p' = ⟨payroll.employees
        ++ [ContractualEmployee id name paymentPerProject projectsCompleted]⟩ ∧
      payroll.addEmployee (ContractualEmployee id name paymentPerProject projectsCompleted)
        = (p', []) ∧
      "Duplicate ID!\n" ∉ out := by
  unfold caseContractual at h
  cases h1 : getValidatedUniqueId payroll "Enter ID: " inp with
  | none => rw [h1] at h; simp at h
  | some r1 =>
    obtain ⟨id, o1, inp1⟩ := r1
    rw [h1] at h
    simp only at h
    cases h2 : getValidatedNameInput "Enter Name: " inp1 with
    | none => rw [h2] at h; simp at h
    | some r2 =>
      obtain ⟨name, o2, inp2⟩ := r2
      rw [h2] at h
      simp only at h
      cases h3 : getValidatedDoubleInput io "Enter Payment Per Project: " inp2 with
      | none => rw [h3] at h; simp at h
      | some r3 =>
        obtain ⟨rate, o3, inp3⟩ := r3
        rw [h3] at h
        simp only at h
        cases h4 : getValidatedIntInput io "Enter Projects Completed: " inp3 with
        | none => rw [h4] at h; simp at h
        | some r4 =>
          obtain ⟨count, o4, inp4⟩ := r4
          rw [h4] at h
          simp only at h
          obtain ⟨hu, q1⟩ := getValidatedUniqueIdLoop_spec payroll _ (by decide) _ _ _ _ _ h1
          have q2 := getValidatedNameInputLoop_quiet _ (by decide) _ _ _ _ _ h2
          obtain ⟨hw, q3⟩ := getValidatedDoubleInput_spec io _ (by decide) _ _ _ _ h3
          obtain ⟨hh, q4⟩ := getValidatedIntInput_spec io _ (by decide) _ _ _ _ h4
          have hadd := PayrollSystem.addEmployee_of_isIdUnique payroll
            (ContractualEmployee id name rate count) hu
          rw [hadd] at h
          simp only [Option.some.injEq, Prod.mk.injEq] at h
          obtain ⟨rfl, rfl, -⟩ := h
          refine ⟨id, name, rate, count, hu, hw, hh, rfl, hadd, ?_⟩
          simp only [List.mem_append, not_or, List.not_mem_nil, not_false_eq_true, and_true]
          exact ⟨⟨⟨q1, q2⟩, q3⟩, q4⟩
theorem dispatch_add_spec (io : StdStreams) (choice : Int) (payroll p' : PayrollSystem)
    (inp inp' : Input) (out : Output) (hc : choice = 1 ∨ choice = 2 ∨ choice = 3)
    (h : dispatch io choice payroll inp = some (p', out, inp')) :
    ∃ emp : Employee, payroll.isIdUnique emp.getId = true ∧
      payroll.addEmployee emp = (p', []) ∧ p'.employees = payroll.employees ++ [emp] ∧
      "Duplicate ID!\n" ∉ out := by
  rcases hc with rfl | rfl | rfl
  · obtain ⟨id, name, salary, hu, -, rfl, hadd, hq⟩ :=
      caseFullTime_spec io payroll p' inp inp' out h
    exact ⟨FullTimeEmployee id name salary, hu, hadd, rfl, hq⟩
  · obtain ⟨id, name, w, hrs, hu, -, -, rfl, hadd, hq⟩ :=
      casePartTime_spec io payroll p' inp inp' out h
    exact ⟨PartTimeEmployee id name w hrs, hu, hadd, rfl, hq⟩
  · obtain ⟨id, name, r, c, hu, -, -, rfl, hadd, hq⟩ :=
      caseContractual_spec io payroll p' inp inp' out h
    exact ⟨ContractualEmployee id name r c, hu, hadd, rfl, hq⟩

theorem mainRound_eq_some (io : StdStreams) (payroll p' : PayrollSystem) (inp inp' : Input)
    (choice : Int) (out : Output)
    (h : mainRound io payroll inp = some (choice, p', out, inp')) :
    ∃ (o0 o1 : Output) (inp0 : Input),
      getValidatedIntInput io "Enter your choice: " inp = some (choice, o0, inp0) ∧
      dispatch io choice payroll (ignoreLine inp0) = some (p', o1, inp') ∧
      out = menuText ++ o0 ++ o1 := by
  unfold mainRound at h
  cases h0 : getValidatedIntInput io "Enter your choice: " inp with
  | none => rw [h0] at h; simp at h
  | some r0 =>
    obtain ⟨c, o0, inp0⟩ := r0
    rw [h0] at h
    simp only at h
    cases h1 : dispatch io c payroll (ignoreLine inp0) with
    | none => rw [h1] at h; simp at h
    | some r1 =>
      obtain ⟨q, o1, i1⟩ := r1
      rw [h1] at h
      simp only [Option.some.injEq, Prod.mk.injEq] at h
      obtain ⟨rfl, rfl, rfl, rfl⟩ := h
      exact ⟨o0, o1, inp0, rfl, h1, rfl⟩

/-- C9 fails on the code: hours worked are read with `getValidatedDoubleInput`,
whose accept condition is `≥ 0`, not `> 0`.  On the session `2`, `E2`,
`John Roe`, `100`, `0`, `4` the part-time flow completes and stores a record
with `hoursWorked = 0`; the division in its `display()` is `0 / 0`, a NaN,
and the report of option `4` shows it as the hourly wage. -/
theorem partTime_flow_zero_hours_divides_by_zero :
    mainRound sampleStreams PayrollSystem.empty
        ["2".data, "E2".data, "John Roe".data, "100".data, "0".data, "4".data]
      = some (2, ⟨[Employee.partTime "E2" "John Roe" 0 0]⟩,
          menuText ++ ["Enter your choice: ", "Enter ID: ", "Enter Name: ",
            "Enter Hourly Wage: ", "Enter Hours Worked: "], [[], "4".data]) ∧
    ¬ ((0 : ℚ) < 0) ∧
    divide (Employee.partTime "E2" "John Roe" 0 0).salary 0 = DoubleQuotient.nan ∧
    mainRound sampleStreams ⟨[Employee.partTime "E2" "John Roe" 0 0]⟩ [[], "4".data]
      = some (4, ⟨[Employee.partTime "E2" "John Roe" 0 0]⟩,
          menuText ++ ["Enter your choice: ", "--- Employee Payroll Report ---\n",
            "Employee: John Roe (ID: E2)\n", "Hourly Wage: Php -nan\n",
            "Hours Worked: 0\n", "Total Salary: Php 0\n\n"], []) :=
  ⟨by decide!, by decide, by decide!, by decide!⟩

/-- C10: in a round of the menu loop that completes an add flow (choice 1, 2 or 3),
from any collection, the id of the record built still satisfies `isIdUnique`
when `addEmployee` is called: `addEmployee` takes its append branch and
writes nothing, the collection grows by exactly that one record, and the
insertion notice `Duplicate ID!` is not among the texts the round writes. -/
theorem add_flow_never_duplicate (io : StdStreams) (payroll p' : PayrollSystem)
    (inp inp' : Input) (choice : Int) (out : Output)
    (h : mainRound io payroll inp = some (choice, p', out, inp'))
    (hc : choice = 1 ∨ choice = 2 ∨ choice = 3) :
    ∃ emp : Employee, payroll.isIdUnique emp.getId = true ∧
      payroll.addEmployee emp = (p', []) ∧
      p'.employees = payroll.employees ++ [emp] ∧
      p'.employees.length = payroll.employees.length + 1 ∧
      "Duplicate ID!\n" ∉ out := by
  obtain ⟨o0, o1, inp0, h0, hd, rfl⟩ := mainRound_eq_some io payroll p' inp inp' choice out h
  obtain ⟨emp, hu, hadd, hemp, hq⟩ := dispatch_add_spec io choice payroll p' _ _ _ hc hd
  obtain ⟨-, q0⟩ := getValidatedIntInput_spec io _ (by decide) _ _ _ _ h0
  refine ⟨emp, hu, hadd, hemp, by simp [hemp], ?_⟩
  simp only [List.mem_append, not_or]
  exact ⟨⟨by decide, q0⟩, hq⟩

/-- Witness of C10: with `E1` stored, the operator chooses the contractual flow,
first enters the taken id `E1` (refused at the prompt), then `E3`; the record
is appended and no insertion notice is written. -/
theorem add_flow_never_duplicate_witness :
    mainRound sampleStreams ⟨[FullTimeEmployee "E1" "Jane Doe" 30000]⟩
        ["3".data, "E1".data, "E3".data, "Ann Lee".data, "2500".data, "4".data]
      = some (3, ⟨[FullTimeEmployee "E1" "Jane Doe" 30000,
            ContractualEmployee "E3" "Ann Lee" 2500 4]⟩,
          menuText ++ ["Enter your choice: ", "Enter ID: ",
            "Duplicate ID! Please enter another ID.\n", "Enter ID: ", "Enter Name: ",
            "Enter Payment Per Project: ", "Enter Projects Completed: "], [[]]) ∧
    ∃ emp : Employee,
      (PayrollSystem.mk [FullTimeEmployee "E1" "Jane Doe" 30000]).isIdUnique emp.getId = true ∧
      (PayrollSystem.mk [FullTimeEmployee "E1" "Jane Doe" 30000]).addEmployee emp
        = (⟨[FullTimeEmployee "E1" "Jane Doe" 30000,
            ContractualEmployee "E3" "Ann Lee" 2500 4]⟩, []) ∧
      [FullTimeEmployee "E1" "Jane Doe" 30000, ContractualEmployee "E3" "Ann Lee" 2500 4]
        = [FullTimeEmployee "E1" "Jane Doe" 30000] ++ [emp] ∧
      [FullTimeEmployee "E1" "Jane Doe" 30000,
          ContractualEmployee "E3" "Ann Lee" 2500 4].length
        = [FullTimeEmployee "E1" "Jane Doe" 30000].length + 1 ∧
      "Duplicate ID!\n" ∉ menuText ++ ["Enter your choice: ", "Enter ID: ",
            "Duplicate ID! Please enter another ID.\n", "Enter ID: ", "Enter Name: ",
            "Enter Payment Per Project: ", "Enter Projects Completed: "] :=
  ⟨by decide!,
   add_flow_never_duplicate sampleStreams ⟨[FullTimeEmployee "E1" "Jane Doe" 30000]⟩
     ⟨[FullTimeEmployee "E1" "Jane Doe" 30000, ContractualEmployee "E3" "Ann Lee" 2500 4]⟩
     ["3".data, "E1".data, "E3".data, "Ann Lee".data, "2500".data, "4".data] [[]] 3
     (menuText ++ ["Enter your choice: ", "Enter ID: ",
        "Duplicate ID! Please enter another ID.\n", "Enter ID: ", "Enter Name: ",
        "Enter Payment Per Project: ", "Enter Projects Completed: "])
     (by decide!) (Or.inr (Or.inr rfl))⟩

/-- Counterexample to C8 as stated: the line `-1 5` is entered at a salary prompt,
then the line `7`.  The tokens entered are `-1`, `5`, `7`, and `5` is the
first that is `≥ 0`; but `-1` is rejected, the rest of its line is discarded
with it, and the value returned is `7`. -/
theorem numeric_validator_discards_rest_of_line :
    leadingToken sampleStreams.readDouble "-1 5".data = some (some (-1), " 5".data) ∧
    leadingToken sampleStreams.readDouble " 5".data = some (some 5, []) ∧
    (0 : ℚ) ≤ 5 ∧
    getValidatedDoubleInput sampleStreams "Enter Salary: " ["-1 5".data, "7".data]
      = some (7, ["Enter Salary: ", "Invalid input. Please enter a valid number.\n",
          "Enter Salary: "], [[]]) ∧
    (7 : ℚ) ≠ 5 :=
  ⟨by decide!, by decide!, by decide!, by decide!, by decide!⟩

end Payroll
